import Mathlib

/-!
Shallow embedding of src/static/js/script.js.

The script attaches six independent event handlers on page load.  Each
handler is modelled as a pure function from the DOM state it reads to the
DOM state it writes, together with the list of alert messages it emits.
-/

namespace EligibilityApp

/-- State of the two elements touched by the sidebar toggle: whether each
currently carries the class named collapsed. -/
structure SidebarState where
  sidebarCollapsed : Bool
  contentCollapsed : Bool
  deriving DecidableEq

/-- The sidebar toggle click handler: toggleClass on the pair of elements
flips the class on each element independently. -/
def sidebarToggleClick (s : SidebarState) : SidebarState :=
  { sidebarCollapsed := !s.sidebarCollapsed, contentCollapsed := !s.contentCollapsed }

/-- State of one table element: whether the widget reports it as already a
DataTable, and how many times the enhancement call has run on it. -/
structure TableState where
  isDataTable : Bool
  enhanceCount : Nat
  deriving DecidableEq

/-- The body of the each-loop of the initializer: if the capability query is
false, the enhancement call runs (marking the table and counting the call);
otherwise nothing happens. -/
def dataTableInitStep (t : TableState) : TableState :=
  if t.isDataTable then t
  else { isDataTable := true, enhanceCount := t.enhanceCount + 1 }

/-- One invocation of the initializer: the each-loop visits every table. -/
def initializeTables (ts : List TableState) : List TableState :=
  ts.map dataTableInitStep

/-- A table as it is present at page load, before any enhancement. -/
def freshTable : TableState := { isDataTable := false, enhanceCount := 0 }

/-- The value held by an insurance-code input field. -/
structure InsuranceCodeField where
  value : String
  deriving DecidableEq

/-- The input event handler on insurance-code fields: the value is replaced
by its uppercase form. -/
def insuranceCodeInputHandler (f : InsuranceCodeField) : InsuranceCodeField :=
  { value := f.value.toUpper }

/-- State of the submit button found inside a form. -/
structure SubmitButton where
  disabled : Bool
  innerHtml : String
  deriving DecidableEq

/-- A form, holding the submit button located inside it. -/
structure FormState where
  submitButton : SubmitButton
  deriving DecidableEq

/-- The markup the submit handler writes into the button: a spinner icon
followed by the text Processing. -/
def processingHtml : String := "<i class=\"fas fa-spinner fa-spin\"></i> Processing..."

/-- The submit event handler: the submit button inside the form is disabled
and its content replaced by the processing indicator. -/
def formSubmitHandler (f : FormState) : FormState :=
  { f with submitButton := { disabled := true, innerHtml := processingHtml } }

/-- State read and written by the password visibility toggle: the type
attribute of the input in the enclosing input group, and the presence of
the two glyph classes on the icon inside the toggle. -/
structure PasswordGroupState where
  inputType : String
  hasEye : Bool
  hasEyeSlash : Bool
  deriving DecidableEq

/-- The toggle-password click handler: the type attribute becomes text when
it was password and password otherwise, and toggleClass flips each of the
two glyph classes independently. -/
def togglePasswordClick (s : PasswordGroupState) : PasswordGroupState :=
  { inputType := if s.inputType = "password" then "text" else "password",
    hasEye := !s.hasEye,
    hasEyeSlash := !s.hasEyeSlash }

/-- The transient file descriptor inspected by the upload validator: its
name and its size in bytes. -/
structure JsFile where
  name : String
  size : Nat
  deriving DecidableEq

/-- The size computation of the handler: bytes divided by 1024 and again by
1024.  Division by powers of two is exact, so exact rational arithmetic
models the floating point computation of the source faithfully for every
realistic file size. -/
def fileSizeMB (f : JsFile) : ℚ := (f.size : ℚ) / 1024 / 1024

/-- Splitting a character list on a separator, with the semantics of the
split method of the source language: the empty list yields one empty
field, and a trailing separator yields a trailing empty field. -/
def splitChars (sep : Char) : List Char → List (List Char)
  | [] => [[]]
  | c :: rest =>
      match splitChars sep rest with
      | [] => [[]]
      | h :: t => if c = sep then [] :: h :: t else (c :: h) :: t

/-- The extension computation of the handler: split the file name on the
dot character, take the last field, lowercase it. -/
def extensionOf (name : String) : String :=
  String.mk (((splitChars '.' name.toList).getLastD []).map Char.toLower)

/-- indexOf with the semantics of the source language: the index of the
first occurrence, and the value minus one when the element is absent. -/
def jsIndexOf : List String → String → Int
  | [], _ => -1
  | a :: rest, s =>
      if a = s then 0
      else if jsIndexOf rest s = -1 then -1 else jsIndexOf rest s + 1

/-- The alert text for an oversize file. -/
def sizeAlertMsg : String := "File size exceeds 10MB limit. Please choose a smaller file."

/-- The alert text for a wrong extension. -/
def extAlertMsg : String := "Please select an Excel file (xlsx or xls format)."

/-- The change event handler on file inputs.  Input: the first selected
file, if any, and the current value of the input element.  Output: the
alerts shown, in order, and the final value of the input element. -/
def fileChangeHandler (selected : Option JsFile) (value : String) : List String × String :=
  match selected with
  | none => ([], value)
  | some file =>
      let fileSize := fileSizeMB file
      let afterSize : List String × String :=
        if fileSize > 10 then ([sizeAlertMsg], "") else ([], value)
      let ext := extensionOf file.name
      if jsIndexOf ["xlsx", "xls"] ext = -1 then
        (afterSize.1 ++ [extAlertMsg], "")
      else afterSize

/-! Helper lemmas. -/

/-- The size condition of the handler holds exactly when the size in bytes
is strictly above 10485760, which is 10 mebibytes. -/
lemma fileSizeMB_gt_ten_iff (f : JsFile) :
    fileSizeMB f > 10 ↔ 10485760 < f.size := by
  unfold fileSizeMB
  rw [div_div, gt_iff_lt, lt_div_iff₀ (by norm_num : (0 : ℚ) < 1024 * 1024)]
  norm_cast

/-- The indexOf test of the handler against the list of allowed extensions
holds exactly when the extension is neither of the two allowed ones. -/
lemma jsIndexOf_excel (s : String) :
    jsIndexOf ["xlsx", "xls"] s = -1 ↔ (s ≠ "xlsx" ∧ s ≠ "xls") := by
  by_cases h1 : s = "xlsx"
  · subst h1; decide
  · by_cases h2 : s = "xls"
    · subst h2; decide
    · simp [jsIndexOf, Ne.symm h1, Ne.symm h2, h1, h2]

/-- Splitting on a separator that does not occur returns the whole list as
the single field. -/
lemma splitChars_of_not_mem (sep : Char) (l : List Char) (h : sep ∉ l) :
    splitChars sep l = [l] := by
  induction l with
  | nil => rfl
  | cons c rest ih =>
      simp only [List.mem_cons, not_or] at h
      simp [splitChars, ih h.2, Ne.symm h.1]

/-- A list of tables that are all already enhanced once is a fixed point of
every number of further initializer invocations. -/
lemma initializeTables_iterate_fixed (k m : Nat) :
    initializeTables^[m] (List.replicate k { isDataTable := true, enhanceCount := 1 })
      = List.replicate k { isDataTable := true, enhanceCount := 1 } := by
  induction m with
  | zero => rfl
  | succ m ih =>
      rw [Function.iterate_succ_apply,
        show initializeTables (List.replicate k { isDataTable := true, enhanceCount := 1 })
            = List.replicate k { isDataTable := true, enhanceCount := 1 } from by
          simp [initializeTables, List.map_replicate, dataTableInitStep],
        ih]

/-! Claims. -/

/-- Claim C1: in the file upload change handler the size check and the
extension check are both evaluated on the same selected file without short
circuiting.  A selected file that exceeds the size limit and also has an
invalid extension produces exactly two blocking alerts in order, the size
alert first and the extension alert second, and the input selection ends
cleared. -/
theorem claim_C1 (f : JsFile) (v : String)
    (hsize : fileSizeMB f > 10)
    (hext : extensionOf f.name ≠ "xlsx" ∧ extensionOf f.name ≠ "xls") :
    fileChangeHandler (some f) v = ([sizeAlertMsg, extAlertMsg], "") := by
  have hidx : jsIndexOf ["xlsx", "xls"] (extensionOf f.name) = -1 :=
    (jsIndexOf_excel _).mpr hext
  simp [fileChangeHandler, hsize, hidx]

/-- Witness for claim C1 at the spec scenario: a 15 mebibyte file with the
extension docx shows both alerts in order and the selection is cleared. -/
theorem claim_C1_witness :
    fileChangeHandler (some { name := "report.docx", size := 15728640 }) "report.docx"
      = ([sizeAlertMsg, extAlertMsg], "") :=
  claim_C1 _ _ ((fileSizeMB_gt_ten_iff _).mpr (by decide)) (by decide)

/-- Claim C2: a selected file whose size in bytes divided by 1024 and again
by 1024 is strictly greater than 10 triggers a blocking size alert and the
selection is cleared; a file of exactly 10 mebibytes is not rejected by the
size rule. -/
theorem claim_C2 :
    (∀ (f : JsFile) (v : String), fileSizeMB f > 10 →
        sizeAlertMsg ∈ (fileChangeHandler (some f) v).1 ∧
        (fileChangeHandler (some f) v).2 = "") ∧
    (∀ (nm v : String),
        sizeAlertMsg ∉ (fileChangeHandler (some { name := nm, size := 10485760 }) v).1) := by
  constructor
  · intro f v h
    by_cases hidx : jsIndexOf ["xlsx", "xls"] (extensionOf f.name) = -1 <;>
      simp [fileChangeHandler, h, hidx]
  · intro nm v
    have hs : ¬ fileSizeMB { name := nm, size := 10485760 } > 10 := by
      rw [fileSizeMB_gt_ten_iff]
      simp
    by_cases hidx : jsIndexOf ["xlsx", "xls"] (extensionOf nm) = -1 <;>
      simp [fileChangeHandler, hs, hidx, sizeAlertMsg, extAlertMsg]

/-- Witness for claim C2 at the spec scenario: a 12 mebibyte file with the
extension xls gets the size alert and the selection is cleared. -/
theorem claim_C2_witness :
    sizeAlertMsg ∈ (fileChangeHandler (some { name := "big.xls", size := 12582912 }) "big.xls").1 ∧
    (fileChangeHandler (some { name := "big.xls", size := 12582912 }) "big.xls").2 = "" :=
  claim_C2.1 _ _ ((fileSizeMB_gt_ten_iff _).mpr (by decide))

/-- Claim C3: a selected file whose extension, taken case insensitively as
the substring after the last dot of the file name, is neither xlsx nor xls
triggers a blocking extension alert and the selection is cleared. -/
theorem claim_C3 (f : JsFile) (v : String)
    (hext : extensionOf f.name ≠ "xlsx" ∧ extensionOf f.name ≠ "xls") :
    extAlertMsg ∈ (fileChangeHandler (some f) v).1 ∧
    (fileChangeHandler (some f) v).2 = "" := by
  have hidx : jsIndexOf ["xlsx", "xls"] (extensionOf f.name) = -1 :=
    (jsIndexOf_excel _).mpr hext
  by_cases hs : fileSizeMB f > 10 <;> simp [fileChangeHandler, hs, hidx]

/-- Witness for claim C3 at the spec scenario: a 2 mebibyte file with the
extension pdf gets the extension alert and the selection is cleared. -/
theorem claim_C3_witness :
    extAlertMsg ∈ (fileChangeHandler (some { name := "doc.pdf", size := 2097152 }) "doc.pdf").1 ∧
    (fileChangeHandler (some { name := "doc.pdf", size := 2097152 }) "doc.pdf").2 = "" :=
  claim_C3 _ _ (by decide)

/-- Claim C4: the handler alerts only on invalid files and otherwise
changes nothing.  With no file selected no alert is shown and the value is
unchanged, and a selected file within the size limit and with an allowed
extension produces no alert and leaves the value unchanged. -/
theorem claim_C4 :
    (∀ v : String, fileChangeHandler none v = ([], v)) ∧
    (∀ (f : JsFile) (v : String),
        ¬ fileSizeMB f > 10 →
        (extensionOf f.name = "xlsx" ∨ extensionOf f.name = "xls") →
        fileChangeHandler (some f) v = ([], v)) := by
  constructor
  · intro v
    rfl
  · intro f v hs he
    have hidx : ¬ jsIndexOf ["xlsx", "xls"] (extensionOf f.name) = -1 := by
      rw [jsIndexOf_excel]
      rcases he with h | h <;> simp [h]
    simp [fileChangeHandler, hs, hidx]

/-- Witness for claim C4 at the spec scenario: a 5 mebibyte file with the
extension xlsx produces no alert and the selection is retained. -/
theorem claim_C4_witness :
    fileChangeHandler (some { name := "data.xlsx", size := 5242880 }) "data.xlsx"
      = ([], "data.xlsx") :=
  claim_C4.2 _ _ (fun h => by rw [fileSizeMB_gt_ten_iff] at h; exact absurd h (by decide))
    (Or.inl (by decide))

/-- Counterexample to claim C5 as stated: the toggle flips the class on
each element independently, so from a prior state where only the sidebar
carries the class, the click leaves the two elements unequal. -/
theorem claim_C5_counterexample :
    (sidebarToggleClick { sidebarCollapsed := true, contentCollapsed := false }).sidebarCollapsed
      ≠ (sidebarToggleClick { sidebarCollapsed := true, contentCollapsed := false }).contentCollapsed := by
  decide

/-- Claim C5 amended: after a click on the sidebar collapse control the
presence of the collapsed class on the sidebar equals its presence on the
content element, for every prior state in which the two presences were
equal; the page starts with neither element collapsed, so the equality is
an invariant of every click sequence. -/
theorem claim_C5 (s : SidebarState)
    (h : s.sidebarCollapsed = s.contentCollapsed) :
    (sidebarToggleClick s).sidebarCollapsed = (sidebarToggleClick s).contentCollapsed := by
  simp [sidebarToggleClick, h]

/-- Witness for claim C5 at the initial page state, where neither element
carries the class. -/
theorem claim_C5_witness :
    (sidebarToggleClick { sidebarCollapsed := false, contentCollapsed := false }).sidebarCollapsed
      = (sidebarToggleClick { sidebarCollapsed := false, contentCollapsed := false }).contentCollapsed :=
  claim_C5 _ rfl

/-- Claim C6: table enhancement is idempotent across initializer
invocations.  The enhancement call is skipped on a table the capability
query reports as already enhanced, and every table present at page load is
enhanced exactly once after any positive number of initializer runs. -/
theorem claim_C6 :
    (∀ t : TableState, t.isDataTable = true → dataTableInitStep t = t) ∧
    (∀ (k n : Nat), 1 ≤ n →
        initializeTables^[n] (List.replicate k freshTable)
          = List.replicate k { isDataTable := true, enhanceCount := 1 }) := by
  constructor
  · intro t ht
    simp [dataTableInitStep, ht]
  · intro k n hn
    obtain ⟨m, rfl⟩ : ∃ m, n = m + 1 := ⟨n - 1, by omega⟩
    rw [Function.iterate_succ_apply,
      show initializeTables (List.replicate k freshTable)
          = List.replicate k { isDataTable := true, enhanceCount := 1 } from by
        simp [initializeTables, List.map_replicate, dataTableInitStep, freshTable]]
    exact initializeTables_iterate_fixed k m

/-- Witness for claim C6: an already enhanced table is left untouched, and
two fresh tables run through three initializer invocations end enhanced
exactly once each. -/
theorem claim_C6_witness :
    dataTableInitStep { isDataTable := true, enhanceCount := 1 }
        = { isDataTable := true, enhanceCount := 1 } ∧
    initializeTables^[3] (List.replicate 2 freshTable)
        = List.replicate 2 { isDataTable := true, enhanceCount := 1 } :=
  ⟨claim_C6.1 _ rfl, claim_C6.2 2 3 (by decide)⟩

/-- Counterexample to claim C7 as stated: two successive clicks do not
restore the original type when the type attribute started outside the pair
password and text; from the value email the two clicks end at text. -/
theorem claim_C7_counterexample :
    (togglePasswordClick (togglePasswordClick
        { inputType := "email", hasEye := true, hasEyeSlash := false })).inputType ≠ "email" := by
  decide

/-- Claim C7 amended: each click maps the type attribute to text when it
was password and to password otherwise, and flips each of the two icon
glyph classes; two successive clicks restore the whole state whenever the
original type was password or text, which holds for the intended markup. -/
theorem claim_C7 (s : PasswordGroupState) :
    (togglePasswordClick s).inputType
        = (if s.inputType = "password" then "text" else "password") ∧
    (togglePasswordClick s).hasEye = !s.hasEye ∧
    (togglePasswordClick s).hasEyeSlash = !s.hasEyeSlash ∧
    (s.inputType = "password" ∨ s.inputType = "text" →
        togglePasswordClick (togglePasswordClick s) = s) := by
  obtain ⟨t, e, sl⟩ := s
  refine ⟨rfl, rfl, rfl, ?_⟩
  rintro (h | h) <;> subst h <;> simp [togglePasswordClick]

/-- Witness for claim C7 at a masked password input with the eye glyph
shown: two clicks restore the state. -/
theorem claim_C7_witness :
    togglePasswordClick (togglePasswordClick
        { inputType := "password", hasEye := true, hasEyeSlash := false })
      = { inputType := "password", hasEye := true, hasEyeSlash := false } :=
  (claim_C7 _).2.2.2 (Or.inl rfl)

/-- Claim C8: after the input event handler runs on an insurance code
field, the value equals the uppercase transform, character by character, of
the value the field held before the event. -/
theorem claim_C8 (f : InsuranceCodeField) :
    (insuranceCodeInputHandler f).value = String.map Char.toUpper f.value :=
  rfl

/-- Claim C9: when the submit event fires on a form, the submit button
inside that form is disabled and its content is replaced by the spinner
icon followed by the text Processing. -/
theorem claim_C9 (f : FormState) :
    (formSubmitHandler f).submitButton.disabled = true ∧
    (formSubmitHandler f).submitButton.innerHtml = processingHtml :=
  ⟨rfl, rfl⟩

/-- Counterexample to claim C10 as stated: the name XLSX in capitals is a
dotless name different from the two lowercase names xlsx and xls, yet the
handler does not reject it, because the comparison happens after
lowercasing. -/
theorem claim_C10_counterexample :
    ('.' ∉ "XLSX".toList) ∧ "XLSX" ≠ "xlsx" ∧ "XLSX" ≠ "xls" ∧
    extAlertMsg ∉ (fileChangeHandler (some { name := "XLSX", size := 1024 }) "x").1 := by
  refine ⟨by decide, by decide, by decide, ?_⟩
  have hs : ¬ fileSizeMB { name := "XLSX", size := 1024 } > 10 := by
    rw [fileSizeMB_gt_ten_iff]
    decide
  have hidx : ¬ jsIndexOf ["xlsx", "xls"] (extensionOf "XLSX") = -1 := by decide
  simp [fileChangeHandler, hs, hidx]

/-- Claim C10 amended: for a selected file whose name contains no dot the
extension equals the lowercased whole name, a dotless file whose lowercased
name is xlsx or xls passes the extension check, and a dotless file whose
lowercased name is neither is rejected by it. -/
theorem claim_C10 (nm : String) (sz : Nat) (v : String)
    (hdot : '.' ∉ nm.toList) :
    extensionOf nm = String.mk (nm.toList.map Char.toLower) ∧
    (String.mk (nm.toList.map Char.toLower) = "xlsx" ∨
        String.mk (nm.toList.map Char.toLower) = "xls" →
      extAlertMsg ∉ (fileChangeHandler (some { name := nm, size := sz }) v).1) ∧
    (String.mk (nm.toList.map Char.toLower) ≠ "xlsx" ∧
        String.mk (nm.toList.map Char.toLower) ≠ "xls" →
      extAlertMsg ∈ (fileChangeHandler (some { name := nm, size := sz }) v).1) := by
  have hx : extensionOf nm = String.mk (nm.toList.map Char.toLower) := by
    unfold extensionOf
    rw [splitChars_of_not_mem '.' nm.toList hdot]
    simp
  refine ⟨hx, ?_, ?_⟩
  · intro he
    have hidx : ¬ jsIndexOf ["xlsx", "xls"] (extensionOf nm) = -1 := by
      rw [jsIndexOf_excel, hx]
      rcases he with h | h
      · exact fun hc => hc.1 h
      · exact fun hc => hc.2 h
    by_cases hs : fileSizeMB { name := nm, size := sz } > 10 <;>
      simp [fileChangeHandler, hs, hidx, sizeAlertMsg, extAlertMsg]
  · intro he
    have hidx : jsIndexOf ["xlsx", "xls"] (extensionOf nm) = -1 := by
      rw [jsIndexOf_excel, hx]
      exact he
    by_cases hs : fileSizeMB { name := nm, size := sz } > 10 <;>
      simp [fileChangeHandler, hs, hidx]

/-- Witness for claim C10 at the dotless name XLSX in capitals: the
lowercased whole name is xlsx, so the extension check passes. -/
theorem claim_C10_witness :
    extAlertMsg ∉ (fileChangeHandler (some { name := "XLSX", size := 1024 }) "x").1 :=
  (claim_C10 "XLSX" 1024 "x" (by decide)).2.1 (Or.inl (by decide))

end EligibilityApp
